import Mathlib

/-!
Verification development for the Agentic business website builder.

The first part is a shallow embedding of the TypeScript frontend sources
(`frontend/src/types.ts`, `frontend/src/constants/pipelineSteps.ts`,
`frontend/src/components/ProgressTracker.tsx`, `frontend/src/api/client.ts`).
The second part models, from the written specification, the backend Job
Orchestration Engine (job store, pipeline engine, event bus), whose Python
sources are not part of this source tree.  Theorems about the spec and the
code follow at the end.
-/

namespace WebsiteBuilder

/-- Embedding of the `JobStatus` enum from `frontend/src/types.ts`
(values pending, running, completed, failed, cancelled). -/
inductive JobStatus where
  | pending
  | running
  | completed
  | failed
  | cancelled
deriving DecidableEq, Repr

/-- A status is terminal when it is completed, failed or cancelled; the
frontend poll loop (`AgentPipelineView.pollJob`) stops exactly on these. -/
def JobStatus.isTerminal : JobStatus → Bool
  | .completed => true
  | .failed => true
  | .cancelled => true
  | .pending => false
  | .running => false

/-- Embedding of `PipelineStepDef` from `frontend/src/constants/pipelineSteps.ts`.
The TypeScript field `isPerBusiness?: boolean` is optional and only ever set
to `true`; it is embedded as a `Bool` defaulting to `false`. -/
structure PipelineStepDef where
  id : String
  label : String
  order : Nat
  isPerBusiness : Bool := false
deriving DecidableEq, Repr

/-- Embedding of the `PIPELINE_STEPS` table from
`frontend/src/constants/pipelineSteps.ts`, verbatim. -/
def PIPELINE_STEPS : List PipelineStepDef := [
  { id := "initializing", label := "Initializing", order := 0 },
  { id := "discovering_businesses", label := "Discover businesses", order := 1 },
  { id := "detecting_websites", label := "Detect websites", order := 2 },
  { id := "filtering_businesses", label := "Filter (no website)", order := 3 },
  { id := "processing_business", label := "Process business", order := 4 },
  { id := "finding_competitors", label := "Find competitors", order := 5, isPerBusiness := true },
  { id := "analyzing_competitors", label := "Analyze competitors", order := 6, isPerBusiness := true },
  { id := "generating_content", label := "Generate content", order := 7, isPerBusiness := true },
  { id := "generating_site", label := "Generate Next.js site", order := 8, isPerBusiness := true },
  { id := "business_completed", label := "Business done", order := 9, isPerBusiness := true },
  { id := "completed", label := "Completed", order := 10 },
  { id := "failed", label := "Failed", order := 11 }
]

/-- Embedding of the `stepById` map lookup (`stepById.get(stepId)`)
built over `PIPELINE_STEPS`. -/
def stepById (stepId : String) : Option PipelineStepDef :=
  PIPELINE_STEPS.find? (fun s => s.id == stepId)

/-- Replacement of every underscore by a space, the semantics of the
TypeScript `stepId.replace(/_/g, ' ')` (a single-character global replace). -/
def replaceUnderscores (s : String) : String :=
  String.mk (s.data.map (fun c => if c = '_' then ' ' else c))

/-- Embedding of `getStepLabel` from `pipelineSteps.ts`. -/
def getStepLabel (stepId : String) : String :=
  match stepById stepId with
  | some s => s.label
  | none => replaceUnderscores stepId

/-- Embedding of `getStepOrder` from `pipelineSteps.ts`. -/
def getStepOrder (stepId : String) : Nat :=
  match stepById stepId with
  | some s => s.order
  | none => 999

/-- Embedding of `isStepCompleted` from `pipelineSteps.ts`. -/
def isStepCompleted (currentStepId stepId : String) : Bool :=
  let currentOrder := getStepOrder currentStepId
  let stepOrder := getStepOrder stepId
  if currentStepId == "completed" && stepId != "failed" then true
  else if currentStepId == "failed" then
    (if stepId == "failed" then true
     else decide (getStepOrder stepId < getStepOrder "failed"))
  else decide (stepOrder < currentOrder)

/-- Embedding of `isStepActive` from `pipelineSteps.ts`. -/
def isStepActive (currentStepId stepId : String) : Bool :=
  currentStepId == stepId

/-- Embedding of `ProgressUpdate` from `frontend/src/types.ts`; the open
`details: Record<string, any>` payload is embedded as a key/value list. -/
structure ProgressUpdate where
  step : String
  progress : Nat
  details : List (String × String) := []
  timestamp : String := ""
deriving DecidableEq, Repr

/-- Embedding of the local `steps` array of `ProgressTracker`
(`src/unnamed/part_007`). -/
structure TrackerStep where
  id : String
  label : String
  progress : Nat
deriving DecidableEq, Repr

/-- The `steps` array literal of `ProgressTracker` (`src/unnamed/part_007`). -/
def trackerSteps : List TrackerStep := [
  { id := "discovering_businesses", label := "Discovering Businesses", progress := 0 },
  { id := "detecting_websites", label := "Detecting Websites", progress := 0 },
  { id := "filtering_businesses", label := "Filtering", progress := 0 },
  { id := "processing_business", label := "Processing Businesses", progress := 0 },
  { id := "completed", label := "Completed", progress := 0 }
]

/-- The `stepMap` literal inside `getStepProgress` (`src/unnamed/part_007`). -/
def stepMap : List (String × Nat) := [
  ("discovering_businesses", 20),
  ("detecting_websites", 35),
  ("filtering_businesses", 45),
  ("processing_business", 95),
  ("completed", 100)
]

/-- TypeScript `Array.findIndex`: index of the first match, `-1` if none. -/
def findIndexTS {α : Type} (p : α → Bool) : List α → Int
  | [] => -1
  | a :: l =>
    if p a then 0
    else
      let r := findIndexTS p l
      if r = -1 then -1 else r + 1

/-- Embedding of `getStepProgress` from `ProgressTracker`
(`src/unnamed/part_007`).  `stepMap[stepId] || 0` becomes a lookup with
default 0; the two trailing `return 0` branches of the source are kept. -/
def getStepProgress (progress : Option ProgressUpdate) (stepId : String) : Nat :=
  match progress with
  | none => 0
  | some p =>
    if p.step == stepId then p.progress
    else
      let currentStepIndex := findIndexTS (fun s => s.id == p.step) trackerSteps
      let stepIndex := findIndexTS (fun s => s.id == stepId) trackerSteps
      if stepIndex < currentStepIndex then (stepMap.lookup stepId).getD 0
      else if stepIndex > currentStepIndex then 0
      else 0

/-- Embedding of the message `type` union of `WebSocketMessage`
(`frontend/src/types.ts`): `'log' | 'progress' | 'connected'`. -/
inductive WSMessageType where
  | log
  | progress
  | connected
deriving DecidableEq, Repr

/-- Embedding of the `WebSocketMessage` interface from
`frontend/src/types.ts`; optional fields become `Option`s. -/
structure WebSocketMessage where
  type : WSMessageType
  timestamp : String
  level : Option String := none
  message : Option String := none
  logger : Option String := none
  step : Option String := none
  progress : Option Nat := none
  details : Option (List (String × String)) := none
  job_id : Option String := none
  status : Option String := none
deriving DecidableEq, Repr

/-- Embedding of `JobRequestBusiness` from `frontend/src/types.ts`. -/
structure JobRequestBusiness where
  place_id : String
  name : String
  address : String
  phone : Option String := none
  rating : Option Nat := none
  reviews : Option Nat := none
  website : Option String := none
  hasWebsite : Bool
deriving DecidableEq, Repr

/-- Embedding of `JobRequest` from `frontend/src/types.ts` (the variant with
the optional pre-discovered `businesses` list). -/
structure JobRequest where
  industry : String
  city : String
  state : String
  limit : Option Nat := none
  businesses : Option (List JobRequestBusiness) := none
deriving DecidableEq, Repr

/-- Modelled from the spec: the backend Job Orchestration Engine is not under
the source tree (only its frontend consumers are), so §4.2's state machine is
modelled here.  `statusNext a b` holds when the engine may transition a job
from status `a` to status `b`: `Pending -> Running`,
`Running -> Completed | Failed | Cancelled`, and `Pending -> Cancelled` when
cancellation arrives before the first stage; terminal states have no
outgoing transitions. -/
def statusNext : JobStatus → JobStatus → Bool
  | .pending, .running => true
  | .pending, .cancelled => true
  | .running, .completed => true
  | .running, .failed => true
  | .running, .cancelled => true
  | _, _ => false

/-- Rank of a status along the lifecycle chain
`Pending -> Running -> terminal`. -/
def JobStatus.rank : JobStatus → Nat
  | .pending => 0
  | .running => 1
  | .completed => 2
  | .failed => 2
  | .cancelled => 2

/-- A sequence of observations of one job's `status`: consecutive
observations either see the same status again or see one allowed engine
transition (§4.2). -/
def ObservedTrace (tr : List JobStatus) : Prop :=
  List.Chain' (fun a b => a = b ∨ statusNext a b = true) tr

/-- Modelled from the spec: §3's Entity — stable identifier, display name and
a `has_target_artifact` flag (the backend engine holding the concrete
`Business` record is not under the source tree). -/
structure Entity where
  id : String
  name : String
  has_target_artifact : Bool
deriving DecidableEq, Repr

/-- Modelled from the spec: a §3 ProgressSnapshot reduced to the fields the
claims are about (stage identifier and percent). -/
structure Snapshot where
  step : String
  percent : Nat
deriving DecidableEq, Repr

/-- The five per-entity sub-step identifiers of §4.2, in order. -/
def perEntitySteps : List String :=
  ["finding_references", "analyzing_references", "generating_content",
   "rendering_artifact", "entity_completed"]

/-- Modelled from the spec: per-entity sub-progress as a function of the
entity index `idx`, the total `total` of entities after filtering and the
position `pos` within the five sub-steps (§4.2), landing in the 45–100
percent band so that overall percent never decreases. -/
def entityPercent (total idx pos : Nat) : Nat :=
  45 + ((idx * 5 + pos + 1) * 55) / (total * 5)

/-- The five Progress snapshots of one successfully processed entity. -/
def subStepSnaps (total idx : Nat) : List Snapshot :=
  perEntitySteps.enum.map (fun p => ⟨p.2, entityPercent total idx p.1⟩)

/-- Modelled from the spec: the Progress snapshots published while the engine
walks the per-entity sub-pipelines.  A failing entity (per the oracle
`fails`) is abandoned after its first sub-step and the engine proceeds to the
next entity (§4.2 per-entity failure policy). -/
def entitySnaps (fails : Entity → Bool) (total : Nat) : Nat → List Entity → List Snapshot
  | _, [] => []
  | idx, e :: rest =>
    (if fails e then [⟨"finding_references", entityPercent total idx 0⟩]
     else subStepSnaps total idx) ++ entitySnaps fails total (idx + 1) rest

/-- Modelled from the spec: the Log events produced by the per-entity failure
policy — a caught entity failure is logged, referencing the entity, and the
job continues (§4.2). -/
def entityLogs (fails : Entity → Bool) : List Entity → List String
  | [] => []
  | e :: rest =>
    (if fails e then ["Failed to process entity " ++ e.name] else []) ++
      entityLogs fails rest

/-- Modelled from the spec: the artifacts appended to `results`, one per
entity whose sub-pipeline succeeds, keyed by entity identifier (§3). -/
def entityResults (fails : Entity → Bool) : List Entity → List String
  | [] => []
  | e :: rest =>
    (if fails e then [] else [e.id]) ++ entityResults fails rest

/-- The Progress snapshots of the three bulk stages, at the percent range
starts of §4.2 (`discovering_entities` 0→~20, `detecting_targets` ~20→35,
`filtering_entities` ~35→45). -/
def bulkSnaps : List Snapshot :=
  [⟨"discovering_entities", 0⟩, ⟨"detecting_targets", 20⟩,
   ⟨"filtering_entities", 35⟩]

/-- Modelled from the spec: the processing set of a job — the supplied entity
list verbatim when the request pre-supplies one (§6 Submit), otherwise the
discovered entities with every `has_target_artifact` entity dropped by the
filtering stage (§4.2). -/
def processingSet (supplied : Option (List Entity)) (discovered : List Entity) : List Entity :=
  match supplied with
  | some es => es
  | none => discovered.filter (fun e => !e.has_target_artifact)

/-- Modelled from the spec: the ordered list of Progress snapshots one run of
the Pipeline Engine publishes (§4.2): the bulk stages (skipped when the
request pre-supplies entities, §6), the `processing_entity` outer marker, the
per-entity sub-steps for each entity of the processing set in order, and
finally `completed` at percent 100. -/
def runSnaps (supplied : Option (List Entity)) (discovered : List Entity)
    (fails : Entity → Bool) : List Snapshot :=
  let es := processingSet supplied discovered
  let lead := match supplied with
    | some _ => [(⟨"processing_entity", 45⟩ : Snapshot)]
    | none => bulkSnaps ++ [⟨"processing_entity", 45⟩]
  lead ++ entitySnaps fails es.length 0 es ++ [(⟨"completed", 100⟩ : Snapshot)]

/-- Modelled from the spec: the Log events of one engine run (per-entity
failures only; bulk stages out of scope of the claims). -/
def runLogs (supplied : Option (List Entity)) (discovered : List Entity)
    (fails : Entity → Bool) : List String :=
  entityLogs fails (processingSet supplied discovered)

/-- Modelled from the spec: the `results` list of one engine run. -/
def runResults (supplied : Option (List Entity)) (discovered : List Entity)
    (fails : Entity → Bool) : List String :=
  entityResults fails (processingSet supplied discovered)

/-- Modelled from the spec: the terminal status of a run in which at worst
per-entity failures occur — such failures never abort the job (§4.2
per-entity failure policy), so the run ends `Completed` exactly when its
final published snapshot is the `completed` one. -/
def runTerminalStatus (supplied : Option (List Entity)) (discovered : List Entity)
    (fails : Entity → Bool) : JobStatus :=
  match (runSnaps supplied discovered fails).getLast? with
  | some s => if s.step == "completed" then .completed else .failed
  | none => .failed

/-- Modelled from the spec: one stored job row of the §4.1 Job Store. -/
structure StoredJob where
  id : String
  status : JobStatus
  cancelRequested : Bool := false
deriving DecidableEq, Repr

/-- The result values of §6 `Cancel(job_id) -> ok | NotFound | AlreadyTerminal`. -/
inductive CancelResult where
  | ok
  | notFound
  | alreadyTerminal
deriving DecidableEq, Repr

/-- Modelled from the spec: §6 Cancel.  Unknown id → `NotFound`; terminal job
→ `AlreadyTerminal`, a no-op on the store; otherwise `ok` and the job's
cooperative cancellation flag is raised. -/
def cancel (store : List StoredJob) (jobId : String) : CancelResult × List StoredJob :=
  match store.find? (fun j => j.id == jobId) with
  | none => (.notFound, store)
  | some j =>
    if j.status.isTerminal then (.alreadyTerminal, store)
    else (.ok, store.map (fun x => if x.id == jobId then { x with cancelRequested := true } else x))

/-- The `connected` event of §6, carrying the owning job id. -/
def connectedMessage (jobId ts : String) : WebSocketMessage :=
  { type := .connected, timestamp := ts, job_id := some jobId }

/-- Modelled from the spec: §4.4 Subscribe — a late subscriber always
receives a `Connected` event immediately upon attaching, followed by the
events published for its job in publish order. -/
def subscribeStream (jobId ts : String) (published : List WebSocketMessage) :
    List WebSocketMessage :=
  connectedMessage jobId ts :: published

/-! ## Helper lemmas -/

/-- `stepById` finds nothing for an identifier absent from the table. -/
lemma stepById_eq_none {stepId : String}
    (h : stepId ∉ PIPELINE_STEPS.map (fun s => s.id)) : stepById stepId = none := by
  apply List.find?_eq_none.mpr
  intro s hs hbeq
  exact h (List.mem_map.mpr ⟨s, hs, by simpa using hbeq⟩)

/-- Per-entity percent is monotone in the combined position `i * 5 + p`. -/
lemma entityPercent_mono (total : Nat) {i p i' p' : Nat} (h : i * 5 + p ≤ i' * 5 + p') :
    entityPercent total i p ≤ entityPercent total i' p' := by
  unfold entityPercent
  have h1 : (i * 5 + p + 1) * 55 ≤ (i' * 5 + p' + 1) * 55 :=
    Nat.mul_le_mul_right 55 (by omega)
  have h2 : (i * 5 + p + 1) * 55 / (total * 5) ≤ (i' * 5 + p' + 1) * 55 / (total * 5) :=
    Nat.div_le_div_right h1
  exact Nat.add_le_add_left h2 45

/-- Per-entity percent never drops below the 45 percent band start. -/
lemma entityPercent_lb (total i p : Nat) : 45 ≤ entityPercent total i p :=
  Nat.le_add_right 45 _

/-- Per-entity percent never exceeds 100 while the position stays within the
processing set. -/
lemma entityPercent_ub {total i p : Nat} (h : i * 5 + p + 1 ≤ total * 5) :
    entityPercent total i p ≤ 100 := by
  unfold entityPercent
  have h5 : 0 < total * 5 := lt_of_lt_of_le (by omega) h
  have h1 : (i * 5 + p + 1) * 55 ≤ (total * 5) * 55 := Nat.mul_le_mul_right 55 h
  have h2 : (i * 5 + p + 1) * 55 / (total * 5) ≤ (total * 5) * 55 / (total * 5) :=
    Nat.div_le_div_right h1
  rw [Nat.mul_div_cancel_left 55 h5] at h2
  calc 45 + (i * 5 + p + 1) * 55 / (total * 5) ≤ 45 + 55 := Nat.add_le_add_left h2 45
    _ = 100 := rfl

/-- Every snapshot of the per-entity loop carries a percent of the form
`entityPercent total i pos` with its combined position inside the loop's
range. -/
lemma entitySnaps_mem {fails : Entity → Bool} {total : Nat} :
    ∀ {idx : Nat} {es : List Entity} {s : Snapshot}, s ∈ entitySnaps fails total idx es →
      ∃ i pos, pos ≤ 4 ∧ idx ≤ i ∧ i * 5 + pos < (idx + es.length) * 5 ∧
        s.percent = entityPercent total i pos := by
  intro idx es
  induction es generalizing idx with
  | nil => intro s hs; simp [entitySnaps] at hs
  | cons e rest ih =>
    intro s hs
    rw [entitySnaps] at hs
    simp only [List.length_cons]
    rcases List.mem_append.mp hs with h1 | h2
    · cases hf : fails e with
      | true =>
        rw [if_pos hf] at h1
        simp only [List.mem_singleton] at h1
        exact ⟨idx, 0, by omega, Nat.le_refl _, by omega, by rw [h1]⟩
      | false =>
        rw [if_neg (by simp [hf])] at h1
        simp only [subStepSnaps, perEntitySteps, List.enum, List.map,
          List.mem_cons, List.not_mem_nil, or_false] at h1
        rcases h1 with h | h | h | h | h
        · exact ⟨idx, 0, by omega, Nat.le_refl _, by omega, by rw [h]⟩
        · exact ⟨idx, 1, by omega, Nat.le_refl _, by omega, by rw [h]⟩
        · exact ⟨idx, 2, by omega, Nat.le_refl _, by omega, by rw [h]⟩
        · exact ⟨idx, 3, by omega, Nat.le_refl _, by omega, by rw [h]⟩
        · exact ⟨idx, 4, by omega, Nat.le_refl _, by omega, by rw [h]⟩
    · rcases ih h2 with ⟨i, pos, hp, hi, hb, he⟩
      exact ⟨i, pos, hp, by omega, by omega, he⟩

/-- The percents of the per-entity loop form a non-decreasing chain. -/
lemma entitySnaps_chain (fails : Entity → Bool) (total : Nat) :
    ∀ (idx : Nat) (es : List Entity),
      List.Chain' (· ≤ ·) ((entitySnaps fails total idx es).map Snapshot.percent) := by
  intro idx es
  induction es generalizing idx with
  | nil => simp [entitySnaps]
  | cons e rest ih =>
    rw [entitySnaps]
    have hconn : ∀ i0 p0, i0 ≤ idx → p0 ≤ 4 →
        ∀ x, x = entityPercent total i0 p0 →
        ∀ y ∈ ((entitySnaps fails total (idx + 1) rest).map Snapshot.percent).head?, x ≤ y := by
      intro i0 p0 hi0 hp0 x hx y hy
      have hymem := List.mem_of_mem_head? hy
      rcases List.mem_map.mp hymem with ⟨s, hs, rfl⟩
      rcases entitySnaps_mem hs with ⟨i, pos, _, hi, _, he⟩
      rw [hx, he]
      exact entityPercent_mono total (by omega)
    cases hf : fails e with
    | true =>
      rw [if_pos rfl, List.map_append, List.chain'_append]
      refine ⟨by simp, ih (idx + 1), ?_⟩
      intro x hx y hy
      simp only [List.map_cons, List.map_nil, List.getLast?_singleton,
        Option.mem_def, Option.some.injEq] at hx
      exact hconn idx 0 (Nat.le_refl _) (by omega) x hx.symm y hy
    | false =>
      rw [if_neg Bool.false_ne_true, List.map_append, List.chain'_append]
      refine ⟨?_, ih (idx + 1), ?_⟩
      · simp only [subStepSnaps, perEntitySteps, List.enum, List.map, List.chain'_cons,
          List.chain'_singleton, and_true]
        refine ⟨?_, ?_, ?_, ?_⟩ <;> exact entityPercent_mono total (by omega)
      · intro x hx y hy
        have hxmem := List.mem_of_mem_getLast? hx
        simp only [subStepSnaps, perEntitySteps, List.enum, List.map,
          List.mem_cons, List.not_mem_nil, or_false] at hxmem
        rcases hxmem with h | h | h | h | h
        · exact hconn idx 0 (Nat.le_refl _) (by omega) x h y hy
        · exact hconn idx 1 (Nat.le_refl _) (by omega) x h y hy
        · exact hconn idx 2 (Nat.le_refl _) (by omega) x h y hy
        · exact hconn idx 3 (Nat.le_refl _) (by omega) x h y hy
        · exact hconn idx 4 (Nat.le_refl _) (by omega) x h y hy

/-- The per-entity loop followed by the final `completed` snapshot keeps the
percents non-decreasing. -/
lemma chain_entity_completed (fails : Entity → Bool) (es : List Entity) :
    List.Chain' (· ≤ ·)
      (((entitySnaps fails es.length 0 es) ++ [(⟨"completed", 100⟩ : Snapshot)]).map Snapshot.percent) := by
  rw [List.map_append, List.chain'_append]
  refine ⟨entitySnaps_chain fails es.length 0 es, by simp, ?_⟩
  intro x hx y hy
  simp only [List.map_cons, List.map_nil, List.head?_cons, Option.mem_def,
    Option.some.injEq] at hy
  subst hy
  have hxmem := List.mem_of_mem_getLast? hx
  rcases List.mem_map.mp hxmem with ⟨s, hs, rfl⟩
  rcases entitySnaps_mem hs with ⟨i, pos, _, _, hb, he⟩
  rw [he]
  exact entityPercent_ub (by omega)

/-- The head of the per-entity-plus-completed percent list is at least 45. -/
lemma head_ge_45 (fails : Entity → Bool) (es : List Entity) :
    ∀ y ∈ (((entitySnaps fails es.length 0 es) ++ [(⟨"completed", 100⟩ : Snapshot)]).map Snapshot.percent).head?,
      45 ≤ y := by
  intro y hy
  have hymem := List.mem_of_mem_head? hy
  rw [List.map_append] at hymem
  rcases List.mem_append.mp hymem with h | h
  · rcases List.mem_map.mp h with ⟨s, hs, rfl⟩
    rcases entitySnaps_mem hs with ⟨i, pos, _, _, _, he⟩
    rw [he]
    exact entityPercent_lb es.length i pos
  · simp only [List.map_cons, List.map_nil, List.mem_singleton] at h
    omega

/-- The percents published by one engine run form a non-decreasing chain. -/
lemma runSnaps_percent_chain (supplied : Option (List Entity)) (discovered : List Entity)
    (fails : Entity → Bool) :
    List.Chain' (· ≤ ·) ((runSnaps supplied discovered fails).map Snapshot.percent) := by
  cases supplied with
  | some es =>
    have hshape : (runSnaps (some es) discovered fails).map Snapshot.percent
        = 45 :: ((entitySnaps fails es.length 0 es ++ [(⟨"completed", 100⟩ : Snapshot)]).map Snapshot.percent) := by
      simp [runSnaps, processingSet]
    rw [hshape, List.chain'_cons']
    exact ⟨head_ge_45 fails es, chain_entity_completed fails es⟩
  | none =>
    have hshape : (runSnaps none discovered fails).map Snapshot.percent
        = 0 :: 20 :: 35 :: 45 ::
          ((entitySnaps fails (discovered.filter (fun e => !e.has_target_artifact)).length 0
              (discovered.filter (fun e => !e.has_target_artifact)) ++
            [(⟨"completed", 100⟩ : Snapshot)]).map Snapshot.percent) := by
      simp [runSnaps, processingSet, bulkSnaps]
    rw [hshape, List.chain'_cons, List.chain'_cons, List.chain'_cons, List.chain'_cons']
    exact ⟨by omega, by omega, by omega,
      head_ge_45 fails (discovered.filter (fun e => !e.has_target_artifact)),
      chain_entity_completed fails (discovered.filter (fun e => !e.has_target_artifact))⟩

/-- Appending a singleton fixes the last element of a list. -/
lemma getLast?_append_singleton {α : Type} (l : List α) (a : α) :
    (l ++ [a]).getLast? = some a := by simp

/-- The final snapshot of every engine run is `completed` at percent 100. -/
lemma runSnaps_getLast (supplied : Option (List Entity)) (discovered : List Entity)
    (fails : Entity → Bool) :
    (runSnaps supplied discovered fails).getLast? = some (⟨"completed", 100⟩ : Snapshot) := by
  cases supplied <;> exact getLast?_append_singleton _ _

/-! ## Claims -/

/-- C9: the pipeline step table contains an `initializing` step with order 0
that precedes the discovery step, and the table's complete identifier list,
in order, is initializing, discovering_businesses, detecting_websites,
filtering_businesses, processing_business, finding_competitors,
analyzing_competitors, generating_content, generating_site,
business_completed, completed, failed. -/
theorem pipeline_table_c9 :
    PIPELINE_STEPS.map (fun s => s.id) =
      ["initializing", "discovering_businesses", "detecting_websites",
       "filtering_businesses", "processing_business", "finding_competitors",
       "analyzing_competitors", "generating_content", "generating_site",
       "business_completed", "completed", "failed"] ∧
    getStepOrder "initializing" = 0 ∧
    getStepOrder "initializing" < getStepOrder "discovering_businesses" := by
  refine ⟨rfl, by decide, by decide⟩

/-- C10: for every step identifier absent from the pipeline step table,
`getStepOrder` returns 999 and `getStepLabel` returns the identifier with
each underscore replaced by a space; consequently, for any unknown current
step identifier, `isStepCompleted` returns true for every step listed in the
table. -/
theorem unknown_step_c10 (stepId : String)
    (h : stepId ∉ PIPELINE_STEPS.map (fun s => s.id)) :
    getStepOrder stepId = 999 ∧
    getStepLabel stepId = replaceUnderscores stepId ∧
    ∀ s ∈ PIPELINE_STEPS, isStepCompleted stepId s.id = true := by
  have hnone := stepById_eq_none h
  have horder : getStepOrder stepId = 999 := by simp [getStepOrder, hnone]
  have hne1 : (stepId == "completed") = false := by
    rw [beq_eq_false_iff_ne]
    intro he
    subst he
    exact h (by decide)
  have hne2 : (stepId == "failed") = false := by
    rw [beq_eq_false_iff_ne]
    intro he
    subst he
    exact h (by decide)
  refine ⟨horder, by simp [getStepLabel, hnone], ?_⟩
  intro s hs
  have hred : isStepCompleted stepId s.id = decide (getStepOrder s.id < 999) := by
    simp [isStepCompleted, hne1, hne2, horder]
  rw [hred]
  fin_cases hs <;> decide

/-- Witness for C10 at the concrete unknown identifier `mystery_step`. -/
theorem unknown_step_c10_witness :
    getStepOrder "mystery_step" = 999 ∧
    getStepLabel "mystery_step" = replaceUnderscores "mystery_step" ∧
    ∀ s ∈ PIPELINE_STEPS, isStepCompleted "mystery_step" s.id = true :=
  unknown_step_c10 "mystery_step" (by decide)

/-- C2: the sequence of percent values carried by a job's Progress events is
monotonically non-decreasing — the engine never publishes a percent smaller
than one previously published for the same job (so any later read of the
stored snapshot also never shows a smaller percent). -/
theorem percent_monotone_c2 (supplied : Option (List Entity)) (discovered : List Entity)
    (fails : Entity → Bool) :
    List.Pairwise (· ≤ ·) ((runSnaps supplied discovered fails).map Snapshot.percent) :=
  List.chain'_iff_pairwise.mp (runSnaps_percent_chain supplied discovered fails)

/-- C7: the bulk stages map to fixed percent ranges — in the frontend
`stepMap`, discovery caps at 20, detection ends at 35 and filtering at 45,
which `getStepProgress` reports for each bulk step once the run has moved
past it; the engine model starts discovery at percent 0 and a successful run
reports the `completed` step at percent exactly 100 (`stepMap` also carries
`completed` at 100). -/
theorem bulk_percent_ranges_c7 (p : ProgressUpdate) (hp : p.step = "processing_business") :
    getStepProgress (some p) "discovering_businesses" = 20 ∧
    getStepProgress (some p) "detecting_websites" = 35 ∧
    getStepProgress (some p) "filtering_businesses" = 45 ∧
    stepMap.lookup "completed" = some 100 ∧
    (∀ discovered fails,
      (runSnaps none discovered fails).head? = some (⟨"discovering_entities", 0⟩ : Snapshot)) ∧
    (∀ supplied discovered fails,
      (runSnaps supplied discovered fails).getLast? = some (⟨"completed", 100⟩ : Snapshot)) := by
  obtain ⟨st, pr, d, ts⟩ := p
  simp only at hp
  subst hp
  refine ⟨?_, ?_, ?_, by decide, ?_, runSnaps_getLast⟩
  · simp [getStepProgress, findIndexTS, trackerSteps, stepMap, List.lookup]
  · simp [getStepProgress, findIndexTS, trackerSteps, stepMap, List.lookup]
  · simp [getStepProgress, findIndexTS, trackerSteps, stepMap, List.lookup]
  · intro discovered fails
    simp [runSnaps, processingSet, bulkSnaps]

/-- Witness for C7 at a concrete snapshot sitting at `processing_business`. -/
theorem bulk_percent_ranges_c7_witness :
    getStepProgress (some ⟨"processing_business", 77, [], ""⟩) "discovering_businesses" = 20 ∧
    getStepProgress (some ⟨"processing_business", 77, [], ""⟩) "detecting_websites" = 35 ∧
    getStepProgress (some ⟨"processing_business", 77, [], ""⟩) "filtering_businesses" = 45 ∧
    stepMap.lookup "completed" = some 100 ∧
    (∀ discovered fails,
      (runSnaps none discovered fails).head? = some (⟨"discovering_entities", 0⟩ : Snapshot)) ∧
    (∀ supplied discovered fails,
      (runSnaps supplied discovered fails).getLast? = some (⟨"completed", 100⟩ : Snapshot)) :=
  bulk_percent_ranges_c7 ⟨"processing_business", 77, [], ""⟩ rfl

/-- An allowed observation step out of a terminal status does not exist. -/
lemma statusNext_terminal_false {s : JobStatus} (h : s.isTerminal = true) (t : JobStatus) :
    statusNext s t = false := by
  cases s <;> simp_all [JobStatus.isTerminal] <;> cases t <;> rfl

/-- Once a trace reaches a terminal status, every later observation shows the
same status. -/
lemma terminal_absorb {s : JobStatus} (h : s.isTerminal = true) :
    ∀ l2 : List JobStatus,
      List.Chain' (fun a b => a = b ∨ statusNext a b = true) (s :: l2) → ∀ t ∈ l2, t = s := by
  intro l2
  induction l2 generalizing s with
  | nil => intro _ t ht; simp at ht
  | cons b l ih =>
    intro hch t ht
    rcases List.chain'_cons.mp hch with ⟨hsb, hch2⟩
    rcases hsb with rfl | hnext
    · rcases List.mem_cons.mp ht with rfl | htl
      · rfl
      · exact ih h hch2 t htl
    · rw [statusNext_terminal_false h b] at hnext
      exact absurd hnext (by simp)

/-- One observation step never lowers the lifecycle rank. -/
lemma obsStep_rank {a b : JobStatus} (h : a = b ∨ statusNext a b = true) :
    a.rank ≤ b.rank := by
  rcases h with rfl | h
  · exact Nat.le_refl _
  · cases a <;> cases b <;> simp_all [statusNext, JobStatus.rank]

/-- C1: every job status is one of the five enum values, observation traces
only move along `Pending -> Running -> {Completed, Failed, Cancelled}` (the
lifecycle rank never decreases), and once a trace is observed in a terminal
state every later observation shows that same status. -/
theorem status_machine_c1 (tr l1 l2 : List JobStatus) (s : JobStatus)
    (hobs : ObservedTrace tr) (heq : tr = l1 ++ s :: l2) (hterm : s.isTerminal = true) :
    (∀ t ∈ tr, t = JobStatus.pending ∨ t = JobStatus.running ∨ t = JobStatus.completed ∨
      t = JobStatus.failed ∨ t = JobStatus.cancelled) ∧
    List.Chain' (fun a b => a.rank ≤ b.rank) tr ∧
    ∀ t ∈ l2, t = s := by
  refine ⟨fun t _ => by cases t <;> simp, ?_, ?_⟩
  · exact List.Chain'.imp (fun a b h => obsStep_rank h) hobs
  · subst heq
    have hsuffix : List.Chain' (fun a b => a = b ∨ statusNext a b = true) (s :: l2) :=
      (List.chain'_append.mp hobs).2.1
    exact terminal_absorb hterm l2 hsuffix

/-- Witness for C1 on the concrete trace pending, running, completed,
completed. -/
theorem status_machine_c1_witness :
    (∀ t ∈ [JobStatus.pending, JobStatus.running, JobStatus.completed, JobStatus.completed],
      t = JobStatus.pending ∨ t = JobStatus.running ∨ t = JobStatus.completed ∨
      t = JobStatus.failed ∨ t = JobStatus.cancelled) ∧
    List.Chain' (fun a b => a.rank ≤ b.rank)
      [JobStatus.pending, JobStatus.running, JobStatus.completed, JobStatus.completed] ∧
    ∀ t ∈ [JobStatus.completed], t = JobStatus.completed :=
  status_machine_c1 _ [JobStatus.pending, JobStatus.running] [JobStatus.completed]
    JobStatus.completed
    (by simp [ObservedTrace, List.chain'_cons, statusNext]) rfl rfl

/-- C5: `cancel` returns `notFound` for an unknown job id, `alreadyTerminal`
for a job already in a terminal state — a no-op leaving the store unchanged —
and `ok` for an existing non-terminal job; `alreadyTerminal` is a value
distinct from `notFound`. -/
theorem cancel_semantics_c5 (store : List StoredJob) (jobId : String) :
    (store.find? (fun j => j.id == jobId) = none → cancel store jobId = (.notFound, store)) ∧
    (∀ j, store.find? (fun j2 => j2.id == jobId) = some j →
      (j.status.isTerminal = true → cancel store jobId = (.alreadyTerminal, store)) ∧
      (j.status.isTerminal = false → (cancel store jobId).1 = .ok)) ∧
    CancelResult.alreadyTerminal ≠ CancelResult.notFound := by
  refine ⟨?_, ?_, by decide⟩
  · intro h
    simp [cancel, h]
  · intro j hj
    constructor
    · intro ht
      simp [cancel, hj, ht]
    · intro ht
      simp [cancel, hj, ht]

/-- Witness for C5: cancelling the already-completed job `a` reports
`alreadyTerminal` and leaves the store unchanged. -/
theorem cancel_semantics_c5_witness :
    cancel [⟨"a", JobStatus.completed, false⟩] "a" =
      (CancelResult.alreadyTerminal, [⟨"a", JobStatus.completed, false⟩]) :=
  ((cancel_semantics_c5 [⟨"a", JobStatus.completed, false⟩] "a").2.1
    ⟨"a", JobStatus.completed, false⟩ (by decide)).1 rfl

/-- With no entity failing, the per-entity loop publishes exactly the five
sub-steps for each entity, in order. -/
lemma entitySnaps_steps_no_fail (fails : Entity → Bool) (total : Nat) :
    ∀ (idx : Nat) (es : List Entity), (∀ e ∈ es, fails e = false) →
      (entitySnaps fails total idx es).map Snapshot.step =
        (es.map (fun _ => perEntitySteps)).flatten := by
  intro idx es
  induction es generalizing idx with
  | nil => intro _; simp [entitySnaps]
  | cons e rest ih =>
    intro h
    have hf : fails e = false := h e (List.mem_cons_self e rest)
    rw [entitySnaps, if_neg (by simp [hf]), List.map_append,
      ih (idx + 1) (fun x hx => h x (List.mem_cons_of_mem e hx))]
    simp [subStepSnaps, perEntitySteps, List.enum, List.enumFrom]

/-- The results of the per-entity loop are the identifiers of exactly the
entities whose sub-pipeline succeeds, in order. -/
lemma entityResults_eq_filter (fails : Entity → Bool) :
    ∀ es : List Entity,
      entityResults fails es = (es.filter (fun x => !fails x)).map (fun e => e.id) := by
  intro es
  induction es with
  | nil => rfl
  | cons e rest ih => cases hf : fails e <;> simp [entityResults, hf, ih, List.filter_cons]

/-- A failing entity of the loop is always mentioned by a log line. -/
lemma entityLogs_mem (fails : Entity → Bool) :
    ∀ (es : List Entity) (e : Entity), e ∈ es → fails e = true →
      ("Failed to process entity " ++ e.name) ∈ entityLogs fails es := by
  intro es
  induction es with
  | nil => intro e he; simp at he
  | cons x rest ih =>
    intro e he hf
    rcases List.mem_cons.mp he with rfl | hm
    · simp [entityLogs, hf]
    · have hrec := ih e hm hf
      cases hfx : fails x <;> simp [entityLogs, hfx, hrec]

/-- Every engine run of the model ends `Completed`: its final snapshot is the
`completed` one. -/
lemma runTerminalStatus_eq_completed (supplied : Option (List Entity))
    (discovered : List Entity) (fails : Entity → Bool) :
    runTerminalStatus supplied discovered fails = JobStatus.completed := by
  unfold runTerminalStatus
  rw [runSnaps_getLast]
  rfl

/-- C3: a job that runs the full pipeline reports its stage identifiers in
the fixed order bulk discovery, bulk detection, bulk filtering (which drops
the entities whose `has_target_artifact` flag is true), the per-entity outer
marker, then for each remaining entity in order the five per-entity
sub-steps, and finally `completed`. -/
theorem full_pipeline_order_c3 (discovered : List Entity) (fails : Entity → Bool)
    (h : ∀ e ∈ discovered.filter (fun e => !e.has_target_artifact), fails e = false) :
    (runSnaps none discovered fails).map Snapshot.step =
      ["discovering_entities", "detecting_targets", "filtering_entities", "processing_entity"] ++
      ((discovered.filter (fun e => !e.has_target_artifact)).map (fun _ => perEntitySteps)).flatten ++
      ["completed"] := by
  have hsteps := entitySnaps_steps_no_fail fails
    (discovered.filter (fun e => !e.has_target_artifact)).length 0
    (discovered.filter (fun e => !e.has_target_artifact)) h
  simp [runSnaps, processingSet, bulkSnaps, hsteps]

/-- Witness for C3 on three discovered entities, one of which is dropped by
the filtering stage. -/
theorem full_pipeline_order_c3_witness :
    (runSnaps none
        [(⟨"b1", "Alpha", false⟩ : Entity), ⟨"b2", "Beta", true⟩, ⟨"b3", "Gamma", false⟩]
        (fun _ => false)).map Snapshot.step =
      ["discovering_entities", "detecting_targets", "filtering_entities", "processing_entity"] ++
      (([(⟨"b1", "Alpha", false⟩ : Entity), ⟨"b2", "Beta", true⟩, ⟨"b3", "Gamma", false⟩].filter
          (fun e => !e.has_target_artifact)).map (fun _ => perEntitySteps)).flatten ++
      ["completed"] :=
  full_pipeline_order_c3
    [(⟨"b1", "Alpha", false⟩ : Entity), ⟨"b2", "Beta", true⟩, ⟨"b3", "Gamma", false⟩]
    (fun _ => false) (by decide)

/-- C4: a failure in one entity's sub-pipeline does not abort the job — a job
over N supplied entities in which exactly one entity fails ends `Completed`
with exactly N - 1 results, and some failing entity of the list is referenced
by a Log event. -/
theorem per_entity_failure_c4 (es : List Entity) (fails : Entity → Bool)
    (h : es.countP (fun e => fails e) = 1) :
    runTerminalStatus (some es) [] fails = JobStatus.completed ∧
    (runResults (some es) [] fails).length = es.length - 1 ∧
    ∃ e ∈ es, fails e = true ∧
      ("Failed to process entity " ++ e.name) ∈ runLogs (some es) [] fails := by
  refine ⟨runTerminalStatus_eq_completed _ _ _, ?_, ?_⟩
  · show (entityResults fails es).length = es.length - 1
    rw [entityResults_eq_filter, List.length_map]
    have h1 : (es.filter (fun x => !fails x)).length = es.countP (fun x => !fails x) :=
      (es.countP_eq_length_filter _).symm
    have h2 : es.length = es.countP (fun e => fails e) + es.countP (fun x => !fails x) := by
      simpa using List.length_eq_countP_add_countP (fun e => fails e) es
    omega
  · have hpos : 0 < es.countP (fun e => fails e) := by omega
    rcases List.countP_pos_iff.mp hpos with ⟨e, he, hf⟩
    exact ⟨e, he, by simpa using hf, entityLogs_mem fails es e he (by simpa using hf)⟩

/-- Witness for C4 on three supplied entities of which exactly the second
fails. -/
theorem per_entity_failure_c4_witness :
    runTerminalStatus
        (some [(⟨"b1", "Alpha", false⟩ : Entity), ⟨"b2", "Beta", false⟩, ⟨"b3", "Gamma", false⟩])
        [] (fun e => e.id == "b2") = JobStatus.completed ∧
    (runResults
        (some [(⟨"b1", "Alpha", false⟩ : Entity), ⟨"b2", "Beta", false⟩, ⟨"b3", "Gamma", false⟩])
        [] (fun e => e.id == "b2")).length =
      [(⟨"b1", "Alpha", false⟩ : Entity), ⟨"b2", "Beta", false⟩, ⟨"b3", "Gamma", false⟩].length - 1 ∧
    ∃ e ∈ [(⟨"b1", "Alpha", false⟩ : Entity), ⟨"b2", "Beta", false⟩, ⟨"b3", "Gamma", false⟩],
      (fun (e2 : Entity) => e2.id == "b2") e = true ∧
      ("Failed to process entity " ++ e.name) ∈
        runLogs
          (some [(⟨"b1", "Alpha", false⟩ : Entity), ⟨"b2", "Beta", false⟩, ⟨"b3", "Gamma", false⟩])
          [] (fun e => e.id == "b2") :=
  per_entity_failure_c4
    [(⟨"b1", "Alpha", false⟩ : Entity), ⟨"b2", "Beta", false⟩, ⟨"b3", "Gamma", false⟩]
    (fun e => e.id == "b2") (by decide)

/-- C6: when the request pre-supplies an entity list, the bulk
discovery/detection/filtering stages are skipped — no bulk stage identifier
is ever published — and the supplied list is processed verbatim: the stage
sequence is the per-entity marker followed by the five sub-steps of each
supplied entity, and the results are exactly the supplied entities'
identifiers. -/
theorem supplied_verbatim_c6 (es discovered : List Entity) (fails : Entity → Bool)
    (h : ∀ e ∈ es, fails e = false) :
    (runSnaps (some es) discovered fails).map Snapshot.step =
      "processing_entity" :: ((es.map (fun _ => perEntitySteps)).flatten ++ ["completed"]) ∧
    (∀ b, b ∈ ["discovering_entities", "detecting_targets", "filtering_entities"] →
      b ∉ (runSnaps (some es) discovered fails).map Snapshot.step) ∧
    runResults (some es) discovered fails = es.map (fun e => e.id) := by
  have hsteps := entitySnaps_steps_no_fail fails es.length 0 es h
  have h1 : (runSnaps (some es) discovered fails).map Snapshot.step =
      "processing_entity" :: ((es.map (fun _ => perEntitySteps)).flatten ++ ["completed"]) := by
    simp [runSnaps, processingSet, hsteps]
  refine ⟨h1, ?_, ?_⟩
  · intro b hb hmem
    rw [h1] at hmem
    rcases List.mem_cons.mp hmem with rfl | hmem2
    · exact absurd hb (by decide)
    · rcases List.mem_append.mp hmem2 with h3 | h4
      · rcases List.mem_flatten.mp h3 with ⟨l, hl, hbl⟩
        rcases List.mem_map.mp hl with ⟨e, _, rfl⟩
        fin_cases hb <;> exact absurd hbl (by decide)
      · rcases List.mem_singleton.mp h4 with rfl
        exact absurd hb (by decide)
  · show entityResults fails es = es.map (fun e => e.id)
    rw [entityResults_eq_filter]
    have hfe : es.filter (fun x => !fails x) = es :=
      List.filter_eq_self.mpr (fun x hx => by simp [h x hx])
    rw [hfe]

/-- Witness for C6: the spec's own example of three supplied entities, none
flagged, processed verbatim. -/
theorem supplied_verbatim_c6_witness :
    (runSnaps
        (some [(⟨"b1", "Alpha", false⟩ : Entity), ⟨"b2", "Beta", false⟩, ⟨"b3", "Gamma", false⟩])
        [] (fun _ => false)).map Snapshot.step =
      "processing_entity" ::
        (([(⟨"b1", "Alpha", false⟩ : Entity), ⟨"b2", "Beta", false⟩, ⟨"b3", "Gamma", false⟩].map
            (fun _ => perEntitySteps)).flatten ++ ["completed"]) ∧
    (∀ b, b ∈ ["discovering_entities", "detecting_targets", "filtering_entities"] →
      b ∉ (runSnaps
          (some [(⟨"b1", "Alpha", false⟩ : Entity), ⟨"b2", "Beta", false⟩, ⟨"b3", "Gamma", false⟩])
          [] (fun _ => false)).map Snapshot.step) ∧
    runResults
        (some [(⟨"b1", "Alpha", false⟩ : Entity), ⟨"b2", "Beta", false⟩, ⟨"b3", "Gamma", false⟩])
        [] (fun _ => false) =
      [(⟨"b1", "Alpha", false⟩ : Entity), ⟨"b2", "Beta", false⟩, ⟨"b3", "Gamma", false⟩].map
        (fun e => e.id) :=
  supplied_verbatim_c6
    [(⟨"b1", "Alpha", false⟩ : Entity), ⟨"b2", "Beta", false⟩, ⟨"b3", "Gamma", false⟩]
    [] (fun _ => false) (by decide)

/-- C8: every delivered event is one of the three variants log, progress or
connected of the embedded wire shape; a new subscriber's stream starts with
the `connected` event, immediately and exactly once; and every percent an
engine run publishes lies within 0 and 100. -/
theorem event_shape_c8 :
    (∀ m : WebSocketMessage, m.type = WSMessageType.log ∨ m.type = WSMessageType.progress ∨
      m.type = WSMessageType.connected) ∧
    (∀ jobId ts published,
      (subscribeStream jobId ts published).head? = some (connectedMessage jobId ts)) ∧
    (∀ jobId ts published, (∀ m ∈ published, m.type ≠ WSMessageType.connected) →
      (subscribeStream jobId ts published).countP
        (fun m => m.type == WSMessageType.connected) = 1) ∧
    (∀ supplied discovered fails, ∀ s ∈ runSnaps supplied discovered fails,
      s.percent ≤ 100) := by
  refine ⟨fun m => by cases h : m.type <;> simp [h], fun _ _ _ => rfl, ?_, ?_⟩
  · intro jobId ts published h
    have h0 : published.countP (fun m => m.type == WSMessageType.connected) = 0 :=
      List.countP_eq_zero.mpr (fun m hm => by simpa using h m hm)
    rw [subscribeStream, List.countP_cons, h0]
    rfl
  · intro supplied discovered fails s hs
    have hub : ∀ es2 : List Entity, s ∈ entitySnaps fails es2.length 0 es2 →
        s.percent ≤ 100 := by
      intro es2 hmem
      rcases entitySnaps_mem hmem with ⟨i, pos, _, _, hb, he⟩
      rw [he]
      exact entityPercent_ub (by omega)
    cases supplied with
    | some es =>
      have hs2 : s ∈ [(⟨"processing_entity", 45⟩ : Snapshot)] ++
          entitySnaps fails es.length 0 es ++ [(⟨"completed", 100⟩ : Snapshot)] := hs
      rcases List.mem_append.mp hs2 with h1 | h2
      · rcases List.mem_append.mp h1 with h3 | h4
        · rcases List.mem_singleton.mp h3 with rfl
          decide
        · exact hub es h4
      · rcases List.mem_singleton.mp h2 with rfl
        decide
    | none =>
      have hs2 : s ∈ (bulkSnaps ++ [(⟨"processing_entity", 45⟩ : Snapshot)]) ++
          entitySnaps fails (discovered.filter (fun e => !e.has_target_artifact)).length 0
            (discovered.filter (fun e => !e.has_target_artifact)) ++
          [(⟨"completed", 100⟩ : Snapshot)] := hs
      rcases List.mem_append.mp hs2 with h1 | h2
      · rcases List.mem_append.mp h1 with h3 | h4
        · rcases h3 with _ | ⟨_, _ | ⟨_, _ | ⟨_, h5⟩⟩⟩ <;> first | decide | (rcases List.mem_singleton.mp h5 with rfl; decide)
        · exact hub (discovered.filter (fun e => !e.has_target_artifact)) h4
      · rcases List.mem_singleton.mp h2 with rfl
        decide

/-- Witness for C8: a subscriber to a one-progress-event stream sees exactly
one `connected` event, and a sample published snapshot stays within 100. -/
theorem event_shape_c8_witness :
    (subscribeStream "job1" "t0"
        [{ type := WSMessageType.progress, timestamp := "t1" }]).countP
      (fun m => m.type == WSMessageType.connected) = 1 ∧
    (⟨"processing_entity", 45⟩ : Snapshot).percent ≤ 100 :=
  ⟨event_shape_c8.2.2.1 "job1" "t0" [{ type := WSMessageType.progress, timestamp := "t1" }]
      (by decide),
    event_shape_c8.2.2.2 (some [(⟨"b1", "Alpha", false⟩ : Entity)]) [] (fun _ => false)
      ⟨"processing_entity", 45⟩ (by decide)⟩

end WebsiteBuilder
